import Mathlib

/-!
Verification of the authentication and session-lifecycle core of the
school-management backend.

The development shallowly embeds the TypeScript source:

* `src/backend/src/lib/password-validation.ts` — password schema, strength
  scoring and `validatePassword`;
* the refresh-token store (`createRefreshToken`, `verifyRefreshToken`,
  `revokeRefreshToken`, `revokeAllUserTokens`, `cleanupOldTokens`,
  `cleanupExpiredTokens`) backed by a persisted table, modelled here as an
  explicit list of records threaded through each operation;
* the in-memory rate limiter of `src/backend/src/middleware/security.ts`;
* the `authMiddleware` and the `/logout` route handler of the auth router.

Machine conventions: timestamps are `Int` milliseconds; raw refresh-token
secrets are `Nat` (the random 32-byte hex string abstracted); the sha256 used
for storage is modelled as the identity embedding `hashRefreshToken`, which is
injective exactly as the collision-free hash is assumed to be by the code.
Database rows live in insertion order in a `List`; SQL `update ... where`
becomes `List.map` of a conditional record update, `select ... limit 1`
becomes `List.find?`, and `orderBy` becomes `List.insertionSort`.
-/

namespace SchoolAuth

/-! ## Password validation (`password-validation.ts`) -/

/-- Test for ASCII lowercase, the regex `/[a-z]/` applied per character. -/
def isAsciiLower (c : Char) : Bool := 'a' ≤ c && c ≤ 'z'

/-- Test for ASCII uppercase, the regex `/[A-Z]/` applied per character. -/
def isAsciiUpper (c : Char) : Bool := 'A' ≤ c && c ≤ 'Z'

/-- Test for ASCII digit, the regex `/[0-9]/` applied per character. -/
def isAsciiDigit (c : Char) : Bool := '0' ≤ c && c ≤ '9'

/-- Character class of the regex `/[^a-zA-Z0-9]/`. -/
def isSpecialChar (c : Char) : Bool := !(isAsciiLower c || isAsciiUpper c || isAsciiDigit c)

/-- Whitespace as matched by the JavaScript regex class `\s` (ASCII part). -/
def isJsWhitespace (c : Char) : Bool :=
  c = ' ' || c = '\t' || c = '\n' || c = '\r' || c = '\x0b' || c = '\x0c'

/-- Character class of the regex `/[^a-zA-Z0-9\s]/`. -/
def isSpecialNonSpace (c : Char) : Bool := isSpecialChar c && !isJsWhitespace c

/-- ASCII lowering, as `String.prototype.toLowerCase` acts on ASCII input. -/
def asciiToLower (c : Char) : Char :=
  if isAsciiUpper c then Char.ofNat (c.toNat + 32) else c

/-- The character list of a string lowered, for the case-insensitive checks. -/
def lowerChars (s : String) : List Char := s.data.map asciiToLower

/-- The regex `/(.)\1{2,}/`: some character repeated three or more times
consecutively. -/
def hasTripleRepeat : List Char → Bool
  | a :: b :: c :: rest => (a = b && b = c) || hasTripleRepeat (b :: c :: rest)
  | _ => false

/-- Substring containment: `pat` occurs contiguously in the second list, the
semantics of an unanchored regex literal match. -/
def hasSubstr (pat : List Char) : List Char → Bool
  | [] => pat.isPrefixOf []
  | c :: cs => pat.isPrefixOf (c :: cs) || hasSubstr pat cs

/-- Head test for the regex `/(?:19|20)\d{2}/` at one position. -/
def yearAtHead : List Char → Bool
  | a :: b :: c :: d :: _ =>
    ((a = '1' && b = '9') || (a = '2' && b = '0')) && isAsciiDigit c && isAsciiDigit d
  | _ => false

/-- The regex `/(?:19|20)\d{2}/`: a year-like pattern anywhere in the string. -/
def hasYearPattern : List Char → Bool
  | [] => false
  | c :: cs => yearAtHead (c :: cs) || hasYearPattern cs

/-- Anchored, case-insensitive match of the final `passwordSchema` refinement
regex `/^(?:password|123456|qwerty|admin|letmein|welcome|monkey|dragon)$/i`. -/
def matchesCommonWeakRegex (p : String) : Bool :=
  ["password", "123456", "qwerty", "admin", "letmein", "welcome", "monkey", "dragon"].any
    (fun w => lowerChars p == w.data)

/-- Error messages produced by `passwordSchema.parse`: the zod chain collects
every failing length bound and refinement, in declaration order. -/
def schemaErrors (p : String) : List String :=
  let cs := p.data
  (if cs.length < 12 then ["Password must be at least 12 characters long"] else []) ++
  (if 128 < cs.length then ["Password must be less than 128 characters"] else []) ++
  (if cs.any isAsciiLower then [] else ["Password must contain at least one lowercase letter"]) ++
  (if cs.any isAsciiUpper then [] else ["Password must contain at least one uppercase letter"]) ++
  (if cs.any isAsciiDigit then [] else ["Password must contain at least one number"]) ++
  (if cs.any isSpecialChar then [] else ["Password must contain at least one special character"]) ++
  (if hasTripleRepeat cs then
    ["Password must not contain more than 2 consecutive identical characters"] else []) ++
  (if matchesCommonWeakRegex p then ["Password cannot be a common weak password"] else [])

/-- The `COMMON_WEAK_PASSWORDS` set of `password-validation.ts`. -/
def COMMON_WEAK_PASSWORDS : List String :=
  ["password", "123456", "password123", "admin", "qwerty", "letmein",
   "welcome", "monkey", "dragon", "123456789", "abc123", "password1",
   "iloveyou", "princess", "admin123", "welcome123", "1234567890",
   "password@123", "qwerty123", "adminadmin"]

/-- Membership of the lowercased password in `COMMON_WEAK_PASSWORDS`. -/
def isCommonWeakPassword (p : String) : Bool :=
  COMMON_WEAK_PASSWORDS.any (fun w => lowerChars p == w.data)

/-- The sequential-letter alternatives of the first `hasWeakPatterns` regex. -/
def sequentialLetterTriples : List String :=
  ["abc", "bcd", "cde", "def", "efg", "fgh", "ghi", "hij", "ijk", "jkl", "klm", "lmn",
   "mno", "nop", "opq", "pqr", "qrs", "rst", "stu", "tuv", "uvw", "vwx", "wxy", "xyz"]

/-- Case-insensitive containment of any of a list of literal patterns. -/
def containsAnyCI (pats : List String) (p : String) : Bool :=
  pats.any (fun w => hasSubstr w.data (lowerChars p))

/-- Case-sensitive containment of any of a list of literal patterns. -/
def containsAny (pats : List String) (p : String) : Bool :=
  pats.any (fun w => hasSubstr w.data p.data)

/-- Result of `hasWeakPatterns`: the flag and the collected pattern names. -/
structure WeakPatterns where
  hasWeak : Bool
  patterns : List String
deriving DecidableEq

/-- The `hasWeakPatterns` check: sequential letters, sequential numbers,
keyboard patterns, and year patterns, collecting a message for each family
found, with `hasWeak` true when any message was collected. -/
def hasWeakPatterns (p : String) : WeakPatterns :=
  let patterns :=
    (if containsAnyCI sequentialLetterTriples p then ["Sequential letters detected"] else []) ++
    (if containsAny ["123", "234", "345", "456", "567", "678", "789", "012"] p then
      ["Sequential numbers detected"] else []) ++
    (if containsAnyCI ["qwer", "asdf", "zxcv", "1234", "qwerty", "asdfgh", "zxcvbn"] p then
      ["Keyboard pattern detected"] else []) ++
    (if hasYearPattern p.data then ["Year pattern detected"] else [])
  ⟨!patterns.isEmpty, patterns⟩

/-- Result record of `checkPasswordStrength`. -/
structure PasswordStrength where
  score : Nat
  level : String
  feedback : List String
deriving DecidableEq

/-- The `checkPasswordStrength` scorer: the sequential `score +=` increments of
the source are summed in statement order, and the feedback messages are pushed
exactly when the source pushes them. -/
def checkPasswordStrength (p : String) : PasswordStrength :=
  let cs := p.data
  let n := cs.length
  let score :=
    (if 12 ≤ n then 25 else if 8 ≤ n then 15 else 0) +
    (if cs.any isAsciiLower then 10 else 0) +
    (if cs.any isAsciiUpper then 10 else 0) +
    (if cs.any isAsciiDigit then 10 else 0) +
    (if cs.any isSpecialChar then 15 else 0) +
    (if 16 ≤ n then 10 else 0) +
    (if cs.any isSpecialNonSpace && 12 ≤ n then 10 else 0) +
    (if !hasTripleRepeat cs then 10 else 0)
  let feedback :=
    (if n < 8 then ["Use at least 12 characters"] else []) ++
    (if cs.any isAsciiLower then [] else ["Add lowercase letters"]) ++
    (if cs.any isAsciiUpper then [] else ["Add uppercase letters"]) ++
    (if cs.any isAsciiDigit then [] else ["Add numbers"]) ++
    (if cs.any isSpecialChar then [] else ["Add special characters"]) ++
    (if !hasTripleRepeat cs then [] else ["Avoid repeating characters"])
  let level :=
    if 90 ≤ score then "strong"
    else if 70 ≤ score then "good"
    else if 50 ≤ score then "fair"
    else if 30 ≤ score then "weak"
    else "very-weak"
  ⟨score, level, feedback⟩

/-- Result record of `validatePassword`. -/
structure ValidationResult where
  isValid : Bool
  errors : List String
  strength : PasswordStrength
deriving DecidableEq

/-- The `validatePassword` entry point: schema errors, the common-weak-password
check, the weak-pattern families, and the minimum strength score of 50; the
password is valid exactly when no error was collected. -/
def validatePassword (p : String) : ValidationResult :=
  let errors := schemaErrors p
  let errors := errors ++
    (if isCommonWeakPassword p then ["Password is too common and easily guessable"] else [])
  let wp := hasWeakPatterns p
  let errors := errors ++ (if wp.hasWeak then wp.patterns else [])
  let strength := checkPasswordStrength p
  let errors := errors ++
    (if strength.score < 50 then
      ["Password is too weak - please choose a stronger password"] else [])
  ⟨errors.isEmpty, errors, strength⟩

/-! ## Refresh token store (`lib/refresh-tokens.ts`) -/

/-- `REFRESH_TOKEN_CONFIG.EXPIRY_DAYS`. -/
def EXPIRY_DAYS : Nat := 30

/-- `REFRESH_TOKEN_CONFIG.MAX_TOKENS_PER_USER`. -/
def MAX_TOKENS_PER_USER : Nat := 5

/-- Milliseconds per day, for the `expiresAt` computation. -/
def msPerDay : Int := 86400000

/-- The sha256 of `hashRefreshToken`, modelled as the identity embedding of
abstract token secrets; its injectivity models the collision-freedom the code
relies on (the spec's "the hash is globally unique"). -/
def hashRefreshToken (t : Nat) : Nat := t

/-- One row of the `refreshTokens` table. -/
structure RefreshTokenRec where
  id : Nat
  userId : Nat
  tokenHash : Nat
  expiresAt : Int
  deviceInfo : Option String
  isRevoked : Bool
  lastUsedAt : Option Int
  createdAt : Int
  updatedAt : Int
deriving DecidableEq

/-- One row of the `users` table, restricted to the columns this core reads. -/
structure UserRec where
  id : Nat
  isActive : Bool
deriving DecidableEq

/-- The persisted state the refresh-token store operates on: the
`refreshTokens` rows in insertion order, the `users` rows, and the id
sequence. -/
structure Store where
  tokens : List RefreshTokenRec
  users : List UserRec
  nextId : Nat
deriving DecidableEq

/-- The `where` clause of `cleanupOldTokens` and `revokeAllUserTokens`:
belongs to the user and is not revoked. -/
def activeFor (u : Nat) (r : RefreshTokenRec) : Bool :=
  r.userId == u && !r.isRevoked

/-- Number of non-revoked token rows of a user. -/
def activeCount (u : Nat) (s : Store) : Nat :=
  s.tokens.countP (activeFor u)

/-- The `set` clause shared by every revoking update:
`isRevoked := true, updatedAt := now`. -/
def revokeUpd (now : Int) (r : RefreshTokenRec) : RefreshTokenRec :=
  { r with isRevoked := true, updatedAt := now }

/-- `update refreshTokens set isRevoked = true where id = i`. -/
def revokeById (now : Int) (i : Nat) (l : List RefreshTokenRec) : List RefreshTokenRec :=
  l.map fun r => if r.id = i then revokeUpd now r else r

/-- The `orderBy(createdAt)` comparison. -/
def createdLE (a b : RefreshTokenRec) : Prop := a.createdAt ≤ b.createdAt

instance : DecidableRel createdLE := fun a b =>
  inferInstanceAs (Decidable (a.createdAt ≤ b.createdAt))

instance : IsTotal RefreshTokenRec createdLE :=
  ⟨fun a b => Int.le_total a.createdAt b.createdAt⟩

instance : IsTrans RefreshTokenRec createdLE :=
  ⟨fun _ _ _ hab hbc => le_trans hab hbc⟩

/-- `cleanupOldTokens`: select the user's non-revoked rows ordered by creation
time; if the count is at or above `MAX_TOKENS_PER_USER`, revoke the oldest
`count - MAX_TOKENS_PER_USER + 1` of them one by one. -/
def cleanupOldTokens (now : Int) (userId : Nat) (s : Store) : Store :=
  let userTokens := (s.tokens.filter (activeFor userId)).insertionSort createdLE
  if MAX_TOKENS_PER_USER ≤ userTokens.length then
    let tokensToRevoke := userTokens.take (userTokens.length - MAX_TOKENS_PER_USER + 1)
    { s with tokens := tokensToRevoke.foldl (fun acc t => revokeById now t.id acc) s.tokens }
  else s

/-- `createRefreshToken`: hash the fresh secret, compute the expiry, clean up
old sessions, then insert the new row. The random secret is the `token`
argument; the returned triple is the secret, the inserted row and the store. -/
def createRefreshToken (now : Int) (userId : Nat) (token : Nat) (deviceInfo : Option String)
    (s : Store) : Nat × RefreshTokenRec × Store :=
  let tokenHash := hashRefreshToken token
  let expiresAt := now + (EXPIRY_DAYS : Int) * msPerDay
  let s₁ := cleanupOldTokens now userId s
  let tokenRecord : RefreshTokenRec :=
    { id := s₁.nextId, userId := userId, tokenHash := tokenHash, expiresAt := expiresAt,
      deviceInfo := deviceInfo, isRevoked := false, lastUsedAt := none,
      createdAt := now, updatedAt := now }
  (token, tokenRecord,
    { s₁ with tokens := s₁.tokens ++ [tokenRecord], nextId := s₁.nextId + 1 })

/-- `revokeRefreshToken`: `update ... set isRevoked = true where tokenHash = h
returning`; the boolean is whether any row matched. -/
def revokeRefreshToken (now : Int) (token : Nat) (s : Store) : Bool × Store :=
  let tokenHash := hashRefreshToken token
  let matched := s.tokens.filter (fun r => r.tokenHash == tokenHash)
  (0 < matched.length,
    { s with tokens :=
        s.tokens.map fun r =>
          if r.tokenHash == tokenHash then revokeUpd now r else r })

/-- Result of `verifyRefreshToken`. -/
structure VerifyResult where
  isValid : Bool
  userId : Option Nat
  tokenRecord : Option RefreshTokenRec
deriving DecidableEq

/-- `verifyRefreshToken`: look up by hash among non-revoked, unexpired rows
(`limit 1`); on a hit load the owning user, revoke and fail if the user is
missing or inactive, otherwise stamp `lastUsedAt` and succeed. -/
def verifyRefreshToken (now : Int) (token : Nat) (s : Store) : VerifyResult × Store :=
  match s.tokens.find?
      (fun r => r.tokenHash == hashRefreshToken token && !r.isRevoked &&
        decide (now < r.expiresAt)) with
  | none => (⟨false, none, none⟩, s)
  | some tr =>
    match s.users.find? (fun u => u.id == tr.userId) with
    | none => (⟨false, none, none⟩, (revokeRefreshToken now token s).2)
    | some u =>
      if !u.isActive then (⟨false, none, none⟩, (revokeRefreshToken now token s).2)
      else
        (⟨true, some tr.userId, some tr⟩,
          { s with tokens :=
              s.tokens.map fun r =>
                if r.id == tr.id then { r with lastUsedAt := some now, updatedAt := now }
                else r })

/-- `revokeAllUserTokens`: revoke every non-revoked row of the user and return
the number of rows the update matched. -/
def revokeAllUserTokens (now : Int) (userId : Nat) (s : Store) : Nat × Store :=
  let matched := s.tokens.filter (activeFor userId)
  (matched.length,
    { s with tokens :=
        s.tokens.map fun r => if activeFor userId r then revokeUpd now r else r })

/-- `cleanupExpiredTokens`: revoke every non-revoked row whose expiry has
passed and return the number of rows matched. -/
def cleanupExpiredTokens (now : Int) (s : Store) : Nat × Store :=
  let matched := s.tokens.filter (fun r => !r.isRevoked && decide (r.expiresAt < now))
  (matched.length,
    { s with tokens :=
        s.tokens.map fun r =>
          if !r.isRevoked && decide (r.expiresAt < now) then revokeUpd now r else r })

/-- The store operations an execution may interleave, for the temporal claims;
`setUserActive` is the CRUD layer's mutation of the user's active flag. -/
inductive StoreOp where
  | create (userId token : Nat) (deviceInfo : Option String) (now : Int)
  | verify (token : Nat) (now : Int)
  | revoke (token : Nat) (now : Int)
  | revokeAll (userId : Nat) (now : Int)
  | cleanupOld (userId : Nat) (now : Int)
  | cleanupExpired (now : Int)
  | setUserActive (userId : Nat) (active : Bool)

/-- Apply one store operation, discarding its return value. -/
def applyOp (s : Store) : StoreOp → Store
  | .create u t d now => (createRefreshToken now u t d s).2.2
  | .verify t now => (verifyRefreshToken now t s).2
  | .revoke t now => (revokeRefreshToken now t s).2
  | .revokeAll u now => (revokeAllUserTokens now u s).2
  | .cleanupOld u now => cleanupOldTokens now u s
  | .cleanupExpired now => (cleanupExpiredTokens now s).2
  | .setUserActive u b =>
    { s with users := s.users.map fun v => if v.id = u then { v with isActive := b } else v }

/-- Apply a sequence of store operations in order. -/
def applyOps (s : Store) (ops : List StoreOp) : Store :=
  ops.foldl applyOp s

/-- Every row holding the given hash is marked revoked. -/
def revokedForHash (h : Nat) (l : List RefreshTokenRec) : Prop :=
  ∀ r ∈ l, r.tokenHash = h → r.isRevoked = true

instance (h : Nat) (l : List RefreshTokenRec) : Decidable (revokedForHash h l) :=
  inferInstanceAs (Decidable (∀ r ∈ l, r.tokenHash = h → r.isRevoked = true))

/-- An operation never inserts a row carrying the given secret's hash: only
`create` inserts rows, and real `create` draws a fresh 256-bit random secret,
so a replayed secret is never re-inserted. -/
def opAvoidsToken (tk : Nat) : StoreOp → Prop
  | .create _ t _ _ => hashRefreshToken t ≠ hashRefreshToken tk
  | _ => True

instance (tk : Nat) : (op : StoreOp) → Decidable (opAvoidsToken tk op)
  | .create _ t _ _ =>
    inferInstanceAs (Decidable (hashRefreshToken t ≠ hashRefreshToken tk))
  | .verify _ _ => .isTrue trivial
  | .revoke _ _ => .isTrue trivial
  | .revokeAll _ _ => .isTrue trivial
  | .cleanupOld _ _ => .isTrue trivial
  | .cleanupExpired _ => .isTrue trivial
  | .setUserActive _ _ => .isTrue trivial

/-- The user's non-revoked rows in creation order — the working list of
`cleanupOldTokens`. -/
def sortedActive (u : Nat) (s : Store) : List RefreshTokenRec :=
  (s.tokens.filter (activeFor u)).insertionSort createdLE

/-- How many rows the eviction step of `cleanupOldTokens` revokes when the cap
is reached. -/
def evictCount (u : Nat) (s : Store) : Nat :=
  (sortedActive u s).length - MAX_TOKENS_PER_USER + 1

/-- The ids of the rows the eviction step revokes: the oldest
`evictCount` of the user's non-revoked rows. -/
def evictIds (u : Nat) (s : Store) : List Nat :=
  ((sortedActive u s).take (evictCount u s)).map RefreshTokenRec.id

/-! ## Logout route handler (`routes/auth.ts`, `auth.post` on the logout
path) -/

/-- The three responses of the logout handler: 200 with the all-devices
message, 200 with the single-device message, and 400 invalid token. -/
inductive LogoutOutcome where
  | loggedOutAll (revokedCount : Nat)
  | loggedOut
  | invalidToken
deriving DecidableEq

/-- The logout handler body: verify the presented refresh token; when
`logoutAll` is set and verification succeeded with a user id, revoke all of
that user's sessions; otherwise fall through to single-device logout, which
revokes the presented token and answers 400 when no row matched. -/
def logoutHandler (now : Int) (refreshToken : Nat) (logoutAll : Bool) (s : Store) :
    LogoutOutcome × Store :=
  let tv := verifyRefreshToken now refreshToken s
  match logoutAll, tv.1.isValid, tv.1.userId with
  | true, true, some uid =>
    let ra := revokeAllUserTokens now uid tv.2
    (.loggedOutAll ra.1, ra.2)
  | _, _, _ =>
    let rv := revokeRefreshToken now refreshToken tv.2
    if rv.1 then (.loggedOut, rv.2) else (.invalidToken, rv.2)

/-! ## Rate limiter (`middleware/security.ts`) -/

/-- One value of the in-memory `rateLimitStore` map. -/
structure RateRecord where
  count : Nat
  resetTime : Int
deriving DecidableEq

/-- `Map.set` on the association-list model of the limiter store: replace the
binding in place if the key is present, else append. -/
def mapSet (k : Nat) (v : RateRecord) : List (Nat × RateRecord) → List (Nat × RateRecord)
  | [] => [(k, v)]
  | (k', v') :: rest => if k' = k then (k, v) :: rest else (k', v') :: mapSet k v rest

/-- One request through the middleware returned by `rateLimit(options)`: lazily
reap expired windows, then start a window at count 1 or increment the live one,
and reject with 429 exactly when the updated count exceeds the maximum. The
boolean is true when the request is admitted to the business logic. -/
def rateLimitStep (windowMs : Int) (maxCount : Nat) (now : Int) (key : Nat)
    (store : List (Nat × RateRecord)) : Bool × List (Nat × RateRecord) :=
  let store₁ := store.filter (fun kv => !decide (kv.2.resetTime < now))
  match store₁.lookup key with
  | none =>
    let record : RateRecord := ⟨1, now + windowMs⟩
    (!decide (maxCount < record.count), mapSet key record store₁)
  | some record =>
    if record.resetTime < now then
      let fresh : RateRecord := ⟨1, now + windowMs⟩
      (!decide (maxCount < fresh.count), mapSet key fresh store₁)
    else
      let bumped : RateRecord := ⟨record.count + 1, record.resetTime⟩
      (!decide (maxCount < bumped.count), mapSet key bumped store₁)

/-- The login `rateLimit` instance of `backend/index.ts` (5 requests per
15-minute window) taken in isolation. In the wired program this instance never
acts alone: the login route also runs the general-API instance on the same
shared store — see `loginRequestStep`. -/
def loginRateStep (now : Int) (key : Nat) (store : List (Nat × RateRecord)) :
    Bool × List (Nat × RateRecord) :=
  rateLimitStep (15 * 60 * 1000) 5 now key store

/-- The general-API `rateLimit` instance of `backend/index.ts` (100 requests
per 15-minute window), registered on every route under the API prefix —
including the login route. -/
def apiRateStep (now : Int) (key : Nat) (store : List (Nat × RateRecord)) :
    Bool × List (Nat × RateRecord) :=
  rateLimitStep (15 * 60 * 1000) 100 now key store

/-- One login request through the middleware chain as actually wired: the
request first passes the login limiter and, only when admitted, the
general-API limiter. `rateLimitStore` is a single module-level map shared by
every `rateLimit` instance, and both instances use the same default client
key, so each admitted login request increments the same shared counter twice;
a 429 from the login instance short-circuits before the second instance
runs. -/
def loginRequestStep (now : Int) (key : Nat) (store : List (Nat × RateRecord)) :
    Bool × List (Nat × RateRecord) :=
  let l := loginRateStep now key store
  if l.1 then apiRateStep now key l.2 else (false, l.2)

/-! ## Authorization middleware (`middleware/auth.ts`) -/

/-- The claims `generateToken` signs into the JWT payload. -/
structure JWTPayload where
  id : Nat
  email : String
  role : String
  schoolId : Option Nat
deriving DecidableEq

/-- A `users` row as read by `authMiddleware` (`lib/auth.ts` user shape). -/
structure AuthUser where
  id : Nat
  email : String
  role : String
  schoolId : Option Nat
  isActive : Bool
deriving DecidableEq

/-- `generateToken`: the payload signed at issuance embeds the user's id,
email, role and schoolId as they are at signing time. -/
def generateToken (u : AuthUser) : JWTPayload :=
  ⟨u.id, u.email, u.role, u.schoolId⟩

/-- Outcome of `authMiddleware`: a 401 rejection, or acceptance with the
identity attached to the request context. -/
inductive AuthOutcome where
  | rejected (status : Nat) (msg : String)
  | accepted (ctxUser : JWTPayload)
deriving DecidableEq

/-- `authMiddleware`: `verifyToken` either yields the signed payload or fails
(modelled by the `Option`); on a decoded payload the user row is loaded and
checked for existence and liveness only, and the payload itself is attached to
the context. -/
def authMiddleware (payload? : Option JWTPayload) (users : List AuthUser) : AuthOutcome :=
  match payload? with
  | none => .rejected 401 "Invalid or expired token"
  | some payload =>
    match users.find? (fun u => u.id == payload.id) with
    | none => .rejected 401 "User not found or inactive"
    | some u =>
      if !u.isActive then .rejected 401 "User not found or inactive"
      else .accepted payload

/-! ## Theorems -/

/-- The validity flag of `validatePassword` is the emptiness of its error
list. -/
theorem validatePassword_isValid (p : String) :
    (validatePassword p).isValid = (validatePassword p).errors.isEmpty := rfl

/-- C6 counterexample: the claim that `"password123"` is rejected and
`"Tr0ub4dor&3xyz!"` is accepted is false on the code — the second password is
rejected as well. -/
theorem c6_spec_pair_refuted :
    ¬ ((validatePassword "password123").isValid = false ∧
       (validatePassword "Tr0ub4dor&3xyz!").isValid = true) := by
  decide

/-- C6 (amended): `validatePassword` rejects `"password123"`, and it also
rejects `"Tr0ub4dor&3xyz!"` — every length, character-class, repetition,
common-password and strength rule passes for the latter, but `hasWeakPatterns`
flags the sequential letter run `"xyz"`, so its sole error is the
sequential-letters message. -/
theorem c6_concrete_passwords :
    (validatePassword "password123").isValid = false ∧
    (validatePassword "Tr0ub4dor&3xyz!").isValid = false ∧
    (validatePassword "Tr0ub4dor&3xyz!").errors = ["Sequential letters detected"] := by
  decide

/-- C7: for every input string the strength score lies in [0, 100] (it is a
`Nat`, so nonnegative by type), and whenever the score is below 50,
`validatePassword` marks the password invalid — the weak-score error is pushed
regardless of which schema rules passed. -/
theorem c7_strength_score_bounded_and_gates (p : String) :
    (checkPasswordStrength p).score ≤ 100 ∧
    ((checkPasswordStrength p).score < 50 → (validatePassword p).isValid = false) := by
  constructor
  · unfold checkPasswordStrength
    dsimp only
    split_ifs <;> norm_num
  · intro h
    have herr : "Password is too weak - please choose a stronger password" ∈
        (validatePassword p).errors := by
      simp only [validatePassword]
      simp [h]
    rw [validatePassword_isValid]
    rcases hl : (validatePassword p).errors with _ | ⟨a, l⟩
    · rw [hl] at herr; cases herr
    · rfl

/-- C7 witness: at the concrete password `"a"` the score is 20, within
bounds, and below 50, so validation fails. -/
theorem c7_witness :
    (checkPasswordStrength "a").score ≤ 100 ∧ (validatePassword "a").isValid = false :=
  ⟨(c7_strength_score_bounded_and_gates "a").1,
   (c7_strength_score_bounded_and_gates "a").2 (by decide)⟩

/-- C10: whatever `authMiddleware` accepts, the identity it attaches to the
context is exactly the decoded JWT payload; and for a token signed over a past
user state `u₀`, acceptance only requires the current row `u₁` (same id) to
exist and be active — the attached claims are `u₀`'s, so role or school
changes in `u₁` are not reflected for the token's remaining lifetime. -/
theorem c10_context_is_issuance_claims (u₀ u₁ : AuthUser) (users : List AuthUser)
    (hfind : users.find? (fun u => u.id == (generateToken u₀).id) = some u₁)
    (hactive : u₁.isActive = true) :
    authMiddleware (some (generateToken u₀)) users = .accepted (generateToken u₀) ∧
    ∀ (p : JWTPayload) (us : List AuthUser) (out : JWTPayload),
      authMiddleware (some p) us = .accepted out → out = p := by
  constructor
  · simp only [authMiddleware, hfind]
    simp [hactive]
  · intro p us out h
    cases hf : us.find? (fun u => u.id == p.id) with
    | none =>
      simp only [authMiddleware, hf] at h
      cases h
    | some u =>
      simp only [authMiddleware, hf] at h
      by_cases ha : u.isActive
      · simp [ha] at h
        exact h.symm
      · simp [ha] at h

/-- C10 witness: a token issued while the user had role "teacher" and school 2
is accepted after the row was changed to role "admin" and school 3, and the
attached identity still carries the issuance-time claims. -/
theorem c10_witness :
    authMiddleware (some (generateToken ⟨1, "t@school.io", "teacher", some 2, true⟩))
        [⟨1, "t@school.io", "admin", some 3, true⟩] =
      .accepted (generateToken ⟨1, "t@school.io", "teacher", some 2, true⟩) :=
  (c10_context_is_issuance_claims ⟨1, "t@school.io", "teacher", some 2, true⟩
    ⟨1, "t@school.io", "admin", some 3, true⟩ _ (by decide) (by decide)).1

/-- Zipping a list with its own image under a map pairs each element with its
image. -/
lemma zip_self_map {α β : Type} (f : α → β) :
    ∀ l : List α, l.zip (l.map f) = l.map fun a => (a, f a)
  | [] => rfl
  | a :: l => by simp [zip_self_map f l]

@[simp] lemma revokeUpd_id (now : Int) (r : RefreshTokenRec) :
    (revokeUpd now r).id = r.id := rfl

@[simp] lemma revokeUpd_userId (now : Int) (r : RefreshTokenRec) :
    (revokeUpd now r).userId = r.userId := rfl

@[simp] lemma revokeUpd_tokenHash (now : Int) (r : RefreshTokenRec) :
    (revokeUpd now r).tokenHash = r.tokenHash := rfl

@[simp] lemma revokeUpd_createdAt (now : Int) (r : RefreshTokenRec) :
    (revokeUpd now r).createdAt = r.createdAt := rfl

@[simp] lemma revokeUpd_isRevoked (now : Int) (r : RefreshTokenRec) :
    (revokeUpd now r).isRevoked = true := rfl

@[simp] lemma revokeUpd_revokeUpd (now now₂ : Int) (r : RefreshTokenRec) :
    revokeUpd now (revokeUpd now₂ r) = revokeUpd now r := rfl

/-- The tokens component of the store after `revokeRefreshToken`. -/
lemma revokeRefreshToken_snd_tokens (now : Int) (t : Nat) (s : Store) :
    (revokeRefreshToken now t s).2.tokens =
      s.tokens.map fun r =>
        if r.tokenHash == hashRefreshToken t then revokeUpd now r else r := rfl

/-- `revokeRefreshToken` leaves the users table and the id sequence alone. -/
lemma revokeRefreshToken_snd_users (now : Int) (t : Nat) (s : Store) :
    (revokeRefreshToken now t s).2.users = s.users ∧
    (revokeRefreshToken now t s).2.nextId = s.nextId := ⟨rfl, rfl⟩

/-- The returned flag of `revokeRefreshToken` is the existence of a matching
row. -/
lemma revokeRefreshToken_fst (now : Int) (t : Nat) (s : Store) :
    (revokeRefreshToken now t s).1 = true ↔
      ∃ r ∈ s.tokens, r.tokenHash = hashRefreshToken t := by
  show decide (0 < (s.tokens.filter (fun r => r.tokenHash == hashRefreshToken t)).length)
      = true ↔ _
  rw [decide_eq_true_iff, ← List.countP_eq_length_filter, List.countP_pos_iff]
  simp

/-- Revoking the same hash twice collapses to the later revocation: the
second pass finds every matching row already matching and re-applies the same
update. -/
lemma revoke_map_collapse {now n₂ : Int} {t : Nat} {l : List RefreshTokenRec} :
    ((l.map fun r =>
        if r.tokenHash == hashRefreshToken t then revokeUpd now r else r).map
      fun r => if r.tokenHash == hashRefreshToken t then revokeUpd n₂ r else r) =
    l.map fun r => if r.tokenHash == hashRefreshToken t then revokeUpd n₂ r else r := by
  rw [List.map_map]
  apply List.map_congr_left
  intro r _
  by_cases hr : r.tokenHash = hashRefreshToken t
  · simp [Function.comp, hr]
  · simp [Function.comp, hr]

/-- C8: revocation is idempotent — a second call at the same instant leaves the
store unchanged, and even at a different instant the revocation flags agree;
the returned boolean reports whether a row with the token's hash exists,
independently of its revoked state, and so is stable across repeated calls;
rows with a different hash are untouched, every row with the matching hash
ends revoked, and (as the hash is unique, here: at most one row carries it) at
most one row is changed. -/
theorem c8_revoke_idempotent (now : Int) (t : Nat) (s : Store)
    (hone : s.tokens.countP (fun r => r.tokenHash == hashRefreshToken t) ≤ 1) :
    (revokeRefreshToken now t (revokeRefreshToken now t s).2).2 =
      (revokeRefreshToken now t s).2 ∧
    (revokeRefreshToken now t (revokeRefreshToken now t s).2).1 =
      (revokeRefreshToken now t s).1 ∧
    ((revokeRefreshToken now t s).1 = true ↔
      ∃ r ∈ s.tokens, r.tokenHash = hashRefreshToken t) ∧
    (∀ r ∈ s.tokens, r.tokenHash ≠ hashRefreshToken t →
      r ∈ (revokeRefreshToken now t s).2.tokens) ∧
    (∀ r' ∈ (revokeRefreshToken now t s).2.tokens,
      r'.tokenHash = hashRefreshToken t → r'.isRevoked = true) ∧
    (s.tokens.zip (revokeRefreshToken now t s).2.tokens).countP
        (fun pr => decide (pr.1 ≠ pr.2)) ≤ 1 ∧
    ∀ now₂,
      (revokeRefreshToken now₂ t (revokeRefreshToken now t s).2).2.tokens.map
          RefreshTokenRec.isRevoked =
        (revokeRefreshToken now t s).2.tokens.map RefreshTokenRec.isRevoked := by
  refine ⟨?_, ?_, revokeRefreshToken_fst now t s, ?_, ?_, ?_, ?_⟩
  · show Store.mk _ _ _ = Store.mk _ _ _
    rw [Store.mk.injEq]
    refine ⟨?_, rfl, rfl⟩
    show ((s.tokens.map _).map _) = s.tokens.map _
    exact revoke_map_collapse
  · show decide (0 < (((s.tokens.map fun r =>
        if r.tokenHash == hashRefreshToken t then revokeUpd now r else r)).filter
          (fun r => r.tokenHash == hashRefreshToken t)).length) = decide _
    have hlen : (((s.tokens.map fun r =>
        if r.tokenHash == hashRefreshToken t then revokeUpd now r else r)).filter
          (fun r => r.tokenHash == hashRefreshToken t)).length =
        ((s.tokens.filter (fun r => r.tokenHash == hashRefreshToken t))).length := by
      rw [← List.countP_eq_length_filter, ← List.countP_eq_length_filter, List.countP_map]
      have hfun : ((fun r => r.tokenHash == hashRefreshToken t) ∘ fun r =>
          if r.tokenHash == hashRefreshToken t then revokeUpd now r else r) =
          fun r => r.tokenHash == hashRefreshToken t := by
        funext r
        by_cases hr : r.tokenHash = hashRefreshToken t
        · simp [Function.comp, hr]
        · simp [Function.comp, hr]
      rw [hfun]
    rw [hlen]
  · intro r hr hne
    rw [revokeRefreshToken_snd_tokens]
    refine List.mem_map.mpr ⟨r, hr, ?_⟩
    simp [hne]
  · intro r' hr' hhash
    rw [revokeRefreshToken_snd_tokens] at hr'
    obtain ⟨r, _, rfl⟩ := List.mem_map.mp hr'
    by_cases hr : r.tokenHash = hashRefreshToken t
    · simp [hr]
    · rw [if_neg (by simpa using hr)] at hhash
      exact absurd hhash hr
  · rw [revokeRefreshToken_snd_tokens]
    rw [zip_self_map, List.countP_map]
    refine le_trans (List.countP_mono_left ?_) hone
    intro r _ hne
    by_cases hr : r.tokenHash = hashRefreshToken t
    · simpa using hr
    · simp [Function.comp, hr] at hne
  · intro now₂
    simp only [revokeRefreshToken_snd_tokens]
    rw [revoke_map_collapse]
    rw [List.map_map, List.map_map]
    apply List.map_congr_left
    intro r _
    by_cases hr : r.tokenHash = hashRefreshToken t
    · simp [Function.comp, hr]
    · simp [Function.comp, hr]

/-- C8 witness: a two-row store, one matching row already revoked; the second
call changes nothing, both calls return true, and the other row survives. -/
theorem c8_witness :
    (revokeRefreshToken 9 3 (revokeRefreshToken 9 3
        ⟨[⟨1, 7, 3, 50, none, true, none, 0, 0⟩, ⟨2, 7, 4, 50, none, false, none, 1, 1⟩],
          [⟨7, true⟩], 3⟩).2).2 =
      (revokeRefreshToken 9 3
        ⟨[⟨1, 7, 3, 50, none, true, none, 0, 0⟩, ⟨2, 7, 4, 50, none, false, none, 1, 1⟩],
          [⟨7, true⟩], 3⟩).2 ∧
    ((revokeRefreshToken 9 3
        ⟨[⟨1, 7, 3, 50, none, true, none, 0, 0⟩, ⟨2, 7, 4, 50, none, false, none, 1, 1⟩],
          [⟨7, true⟩], 3⟩).1 = true ↔
      ∃ r ∈ [⟨1, 7, 3, 50, none, true, none, 0, 0⟩,
             (⟨2, 7, 4, 50, none, false, none, 1, 1⟩ : RefreshTokenRec)],
        r.tokenHash = hashRefreshToken 3) :=
  ⟨(c8_revoke_idempotent 9 3 _ (by decide)).1,
   (c8_revoke_idempotent 9 3 _ (by decide)).2.2.1⟩

/-- Revoking by hash marks every row with the matching hash revoked. -/
lemma revoke_marks_matching (now : Int) (t : Nat) (s : Store) :
    ∀ r' ∈ (revokeRefreshToken now t s).2.tokens,
      r'.tokenHash = hashRefreshToken t → r'.isRevoked = true := by
  intro r' hr' hhash
  rw [revokeRefreshToken_snd_tokens] at hr'
  obtain ⟨r, _, rfl⟩ := List.mem_map.mp hr'
  by_cases hr : r.tokenHash = hashRefreshToken t
  · simp [hr]
  · rw [if_neg (by simpa using hr)] at hhash
    exact absurd hhash hr

/-- The tokens component of the store after `revokeAllUserTokens`. -/
lemma revokeAllUserTokens_snd_tokens (now : Int) (u : Nat) (s : Store) :
    (revokeAllUserTokens now u s).2.tokens =
      s.tokens.map fun r => if activeFor u r then revokeUpd now r else r := rfl

/-- When no row satisfies the lookup predicate, verification fails with the
store untouched. -/
lemma verifyRefreshToken_of_no_candidate (now : Int) (t : Nat) (s : Store)
    (h : ∀ r ∈ s.tokens,
      (r.tokenHash == hashRefreshToken t && !r.isRevoked && decide (now < r.expiresAt)) = false) :
    verifyRefreshToken now t s = (⟨false, none, none⟩, s) := by
  unfold verifyRefreshToken
  rw [List.find?_eq_none.mpr (fun r hr => by simp [h r hr])]

/-- A row of the user that is not matched by the non-revoked filter is already
revoked. -/
lemma isRevoked_of_not_activeFor {u : Nat} {r : RefreshTokenRec}
    (hru : r.userId = u) (ha : activeFor u r = false) : r.isRevoked = true := by
  unfold activeFor at ha
  cases hrev : r.isRevoked with
  | false => rw [hru, hrev] at ha; simp at ha
  | true => rfl

/-- C4: `revokeAllUserTokens` returns the number of the user's non-revoked
rows, afterwards every row of the user is revoked, rows of other users are
untouched, and any token whose hash only occurs among the user's rows no
longer verifies. -/
theorem c4_revoke_all_user_tokens (now : Int) (u : Nat) (s : Store) :
    (revokeAllUserTokens now u s).1 = activeCount u s ∧
    (∀ r ∈ (revokeAllUserTokens now u s).2.tokens, r.userId = u → r.isRevoked = true) ∧
    (∀ r ∈ s.tokens, r.userId ≠ u → r ∈ (revokeAllUserTokens now u s).2.tokens) ∧
    ∀ t now₂, (∀ r ∈ s.tokens, r.tokenHash = hashRefreshToken t → r.userId = u) →
      (verifyRefreshToken now₂ t (revokeAllUserTokens now u s).2).1.isValid = false := by
  refine ⟨?_, ?_, ?_, ?_⟩
  · show (s.tokens.filter (activeFor u)).length = s.tokens.countP (activeFor u)
    rw [List.countP_eq_length_filter]
  · intro r hr hru
    rw [revokeAllUserTokens_snd_tokens] at hr
    obtain ⟨r₀, hr₀, rfl⟩ := List.mem_map.mp hr
    rcases Bool.eq_false_or_eq_true (activeFor u r₀) with ha | ha
    · simp [ha]
    · rw [if_neg (by simp [ha])]
      rw [if_neg (by simp [ha])] at hru
      exact isRevoked_of_not_activeFor hru ha
  · intro r hr hru
    rw [revokeAllUserTokens_snd_tokens]
    refine List.mem_map.mpr ⟨r, hr, ?_⟩
    rw [if_neg]
    unfold activeFor
    simp [hru]
  · intro t now₂ hall
    have hres := verifyRefreshToken_of_no_candidate now₂ t (revokeAllUserTokens now u s).2 ?_
    · rw [hres]
    · intro r hr
      rw [revokeAllUserTokens_snd_tokens] at hr
      obtain ⟨r₀, hr₀, rfl⟩ := List.mem_map.mp hr
      rcases Bool.eq_false_or_eq_true (activeFor u r₀) with ha | ha
      · simp [ha]
      · rw [if_neg (by simp [ha])]
        by_cases hh : r₀.tokenHash = hashRefreshToken t
        · have hrev := isRevoked_of_not_activeFor (hall r₀ hr₀ hh) ha
          simp [hrev]
        · simp [hh]

/-- C4 witness: a user with exactly three live sessions (hashes 1, 2, 3), one
already-revoked session and another user's session; logout-everywhere revokes
exactly 3 rows, returns 3, and session 1 no longer verifies. -/
theorem c4_witness :
    (revokeAllUserTokens 100 7
      ⟨[⟨1, 7, 1, 900, none, false, none, 0, 0⟩, ⟨2, 7, 2, 900, none, false, none, 1, 1⟩,
        ⟨3, 7, 3, 900, none, false, none, 2, 2⟩, ⟨4, 7, 4, 900, none, true, none, 3, 3⟩,
        ⟨5, 8, 5, 900, none, false, none, 4, 4⟩], [⟨7, true⟩, ⟨8, true⟩], 6⟩).1 = 3 ∧
    (verifyRefreshToken 200 1 (revokeAllUserTokens 100 7
      ⟨[⟨1, 7, 1, 900, none, false, none, 0, 0⟩, ⟨2, 7, 2, 900, none, false, none, 1, 1⟩,
        ⟨3, 7, 3, 900, none, false, none, 2, 2⟩, ⟨4, 7, 4, 900, none, true, none, 3, 3⟩,
        ⟨5, 8, 5, 900, none, false, none, 4, 4⟩], [⟨7, true⟩, ⟨8, true⟩], 6⟩).2).1.isValid =
      false :=
  ⟨(c4_revoke_all_user_tokens 100 7 _).1.trans (by decide),
   (c4_revoke_all_user_tokens 100 7 _).2.2.2 1 200 (by decide)⟩

/-- The three stores `verifyRefreshToken` can leave behind when it fails: the
untouched store on a lookup miss, or the store with the token revoked when the
owning user is missing or inactive; in every other case verification
succeeded. -/
lemma verifyRefreshToken_shape (now : Int) (t : Nat) (s : Store) :
    verifyRefreshToken now t s = (⟨false, none, none⟩, s) ∨
    verifyRefreshToken now t s = (⟨false, none, none⟩, (revokeRefreshToken now t s).2) ∨
    (verifyRefreshToken now t s).1.isValid = true := by
  unfold verifyRefreshToken
  split
  · exact .inl rfl
  · split
    · exact .inr (.inl rfl)
    · split
      · exact .inr (.inl rfl)
      · exact .inr (.inr rfl)

/-- C9: with `logoutAll` requested but the presented token failing
verification while a row with its hash still exists (already revoked, expired,
or revoked just now because its user is inactive), the handler falls through
to single-device logout: it answers 200 with the single-device message, only
rows with the presented token's hash are (re)marked revoked, every other row —
in particular every other session of the same user — is untouched, and the
users table is untouched. -/
theorem c9_logout_all_fallthrough (now : Int) (rt : Nat) (s : Store)
    (hfail : (verifyRefreshToken now rt s).1.isValid = false)
    (hex : ∃ r ∈ s.tokens, r.tokenHash = hashRefreshToken rt) :
    (logoutHandler now rt true s).1 = .loggedOut ∧
    (logoutHandler now rt true s).2.tokens =
      s.tokens.map (fun r =>
        if r.tokenHash == hashRefreshToken rt then revokeUpd now r else r) ∧
    (logoutHandler now rt true s).2.users = s.users ∧
    ∀ r ∈ s.tokens, r.tokenHash ≠ hashRefreshToken rt →
      r ∈ (logoutHandler now rt true s).2.tokens := by
  have hmem : ∀ r ∈ s.tokens, r.tokenHash ≠ hashRefreshToken rt →
      r ∈ s.tokens.map (fun r =>
        if r.tokenHash == hashRefreshToken rt then revokeUpd now r else r) := by
    intro r hr hne
    exact List.mem_map.mpr ⟨r, hr, by simp [hne]⟩
  rcases verifyRefreshToken_shape now rt s with hv | hv | hv
  · have hstep : logoutHandler now rt true s =
        (if (revokeRefreshToken now rt s).1 then (.loggedOut, (revokeRefreshToken now rt s).2)
         else (.invalidToken, (revokeRefreshToken now rt s).2)) := by
      unfold logoutHandler
      rw [hv]
    rw [hstep, if_pos ((revokeRefreshToken_fst now rt s).mpr hex)]
    exact ⟨rfl, rfl, rfl, hmem⟩
  · have hex₂ : ∃ r ∈ (revokeRefreshToken now rt s).2.tokens,
        r.tokenHash = hashRefreshToken rt := by
      obtain ⟨r, hr, hh⟩ := hex
      refine ⟨if r.tokenHash == hashRefreshToken rt then revokeUpd now r else r,
        List.mem_map.mpr ⟨r, hr, rfl⟩, ?_⟩
      by_cases hc : r.tokenHash = hashRefreshToken rt
      · simp [hc]
      · exact absurd hh hc
    have hstep : logoutHandler now rt true s =
        (if (revokeRefreshToken now rt (revokeRefreshToken now rt s).2).1 then
          (.loggedOut, (revokeRefreshToken now rt (revokeRefreshToken now rt s).2).2)
         else
          (.invalidToken, (revokeRefreshToken now rt (revokeRefreshToken now rt s).2).2)) := by
      unfold logoutHandler
      rw [hv]
    rw [hstep, if_pos ((revokeRefreshToken_fst now rt (revokeRefreshToken now rt s).2).mpr hex₂)]
    refine ⟨rfl, ?_, rfl, ?_⟩
    · rw [revokeRefreshToken_snd_tokens, revokeRefreshToken_snd_tokens,
        revoke_map_collapse]
    · intro r hr hne
      rw [revokeRefreshToken_snd_tokens, revokeRefreshToken_snd_tokens,
        revoke_map_collapse]
      exact hmem r hr hne
  · exact absurd hv (by simp [hfail])

/-- C9 witness: the presented token's row is already revoked, so verification
fails although the row exists; with `logoutAll = true` the handler still
answers with the single-device success message and the other user session
survives un-revoked. -/
theorem c9_witness :
    (logoutHandler 100 3 true
      ⟨[⟨1, 7, 3, 900, none, true, none, 0, 0⟩, ⟨2, 7, 4, 900, none, false, none, 1, 1⟩],
        [⟨7, true⟩], 5⟩).1 = .loggedOut ∧
    (⟨2, 7, 4, 900, none, false, none, 1, 1⟩ : RefreshTokenRec) ∈
      (logoutHandler 100 3 true
        ⟨[⟨1, 7, 3, 900, none, true, none, 0, 0⟩, ⟨2, 7, 4, 900, none, false, none, 1, 1⟩],
          [⟨7, true⟩], 5⟩).2.tokens :=
  ⟨(c9_logout_all_fallthrough 100 3 _ (by decide) (by decide)).1,
   (c9_logout_all_fallthrough 100 3 _ (by decide) (by decide)).2.2.2
     ⟨2, 7, 4, 900, none, false, none, 1, 1⟩ (by decide) (by decide)⟩

/-- C3: a stored, non-revoked, unexpired token (its hash unique in the store)
whose owning user is missing or inactive fails verification, the users table
is untouched, and the token's row is marked revoked as a side effect. -/
theorem c3_inactive_user_revokes (now : Int) (t : Nat) (s : Store) (r : RefreshTokenRec)
    (hmem : r ∈ s.tokens)
    (hhash : r.tokenHash = hashRefreshToken t)
    (hrev : r.isRevoked = false)
    (hexp : now < r.expiresAt)
    (huniq : ∀ r₂ ∈ s.tokens, r₂.tokenHash = hashRefreshToken t → r₂ = r)
    (hinactive : ∀ u ∈ s.users, u.id = r.userId → u.isActive = false) :
    (verifyRefreshToken now t s).1.isValid = false ∧
    (verifyRefreshToken now t s).2.users = s.users ∧
    ∀ r₂ ∈ (verifyRefreshToken now t s).2.tokens,
      r₂.tokenHash = hashRefreshToken t → r₂.isRevoked = true := by
  have hres : verifyRefreshToken now t s = (⟨false, none, none⟩,
      (revokeRefreshToken now t s).2) := by
    unfold verifyRefreshToken
    split
    · rename_i hf
      exact absurd (List.find?_eq_none.mp hf r hmem) (by simp [hhash, hrev, hexp])
    · rename_i tr hf
      have htr : tr = r := by
        have hpred := List.find?_some hf
        simp only [Bool.and_eq_true, beq_iff_eq] at hpred
        exact huniq tr (List.mem_of_find?_eq_some hf) hpred.1.1
      subst htr
      split
      · rfl
      · rename_i u hu
        have hua : u.isActive = false := by
          have hpred := List.find?_some hu
          simp only [beq_iff_eq] at hpred
          exact hinactive u (List.mem_of_find?_eq_some hu) hpred
        simp [hua]
  rw [hres]
  exact ⟨rfl, rfl, revoke_marks_matching now t s⟩

/-- C3 witness: a live token of user 7, who is deactivated; verification fails
and the row ends revoked. -/
theorem c3_witness :
    (verifyRefreshToken 10 5
      ⟨[⟨1, 7, 5, 1000, none, false, none, 0, 0⟩], [⟨7, false⟩], 2⟩).1.isValid = false ∧
    ∀ r₂ ∈ (verifyRefreshToken 10 5
      ⟨[⟨1, 7, 5, 1000, none, false, none, 0, 0⟩], [⟨7, false⟩], 2⟩).2.tokens,
      r₂.tokenHash = hashRefreshToken 5 → r₂.isRevoked = true :=
  ⟨(c3_inactive_user_revokes 10 5 _ ⟨1, 7, 5, 1000, none, false, none, 0, 0⟩
      (by decide) (by decide) (by decide) (by decide) (by decide) (by decide)).1,
   (c3_inactive_user_revokes 10 5 _ ⟨1, 7, 5, 1000, none, false, none, 0, 0⟩
      (by decide) (by decide) (by decide) (by decide) (by decide) (by decide)).2.2⟩

/-- A pointwise row transform that keeps the hash and never clears the
revoked flag preserves `revokedForHash`. -/
lemma revokedForHash_map {h : Nat} {l : List RefreshTokenRec}
    {f : RefreshTokenRec → RefreshTokenRec}
    (hf : ∀ r, (f r).tokenHash = r.tokenHash ∧
      (r.isRevoked = true → (f r).isRevoked = true))
    (hl : revokedForHash h l) : revokedForHash h (l.map f) := by
  intro r' hr' hh
  obtain ⟨r, hr, rfl⟩ := List.mem_map.mp hr'
  exact (hf r).2 (hl r hr ((hf r).1 ▸ hh))

/-- Revoking one row by id preserves `revokedForHash`. -/
lemma revokedForHash_revokeById {h : Nat} {l : List RefreshTokenRec} (now : Int) (i : Nat)
    (hl : revokedForHash h l) : revokedForHash h (revokeById now i l) := by
  refine revokedForHash_map (fun r => ?_) hl
  by_cases hr : r.id = i
  · simp [hr]
  · simp [hr]

/-- The eviction loop of `cleanupOldTokens` preserves `revokedForHash`. -/
lemma revokedForHash_foldl_revokeById {h : Nat} (now : Int) :
    ∀ (ts : List RefreshTokenRec) (l : List RefreshTokenRec),
      revokedForHash h l →
      revokedForHash h (ts.foldl (fun acc t => revokeById now t.id acc) l)
  | [], _, hl => hl
  | t :: ts, l, hl =>
    revokedForHash_foldl_revokedById_aux ts l hl t
where
  revokedForHash_foldl_revokedById_aux (ts l) (hl : revokedForHash h l) (t) :
      revokedForHash h ((t :: ts).foldl (fun acc t => revokeById now t.id acc) l) := by
    rw [List.foldl_cons]
    exact revokedForHash_foldl_revokeById now ts _ (revokedForHash_revokeById now t.id hl)

/-- `cleanupOldTokens` preserves `revokedForHash`. -/
lemma revokedForHash_cleanupOldTokens {h : Nat} (now : Int) (u : Nat) (s : Store)
    (hs : revokedForHash h s.tokens) :
    revokedForHash h (cleanupOldTokens now u s).tokens := by
  simp only [cleanupOldTokens]
  split
  · exact revokedForHash_foldl_revokeById now _ _ hs
  · exact hs

/-- `revokeRefreshToken` preserves `revokedForHash` for any hash. -/
lemma revokedForHash_revoke {h : Nat} (now : Int) (t : Nat) (s : Store)
    (hs : revokedForHash h s.tokens) :
    revokedForHash h (revokeRefreshToken now t s).2.tokens := by
  rw [revokeRefreshToken_snd_tokens]
  refine revokedForHash_map (fun r => ?_) hs
  by_cases hr : r.tokenHash = hashRefreshToken t
  · simp [hr]
  · simp [hr]

/-- `verifyRefreshToken` preserves `revokedForHash`: it either leaves the
store, revokes the looked-up token, or stamps `lastUsedAt` without touching
revocation flags. -/
lemma revokedForHash_verify {h : Nat} (now : Int) (t : Nat) (s : Store)
    (hs : revokedForHash h s.tokens) :
    revokedForHash h (verifyRefreshToken now t s).2.tokens := by
  unfold verifyRefreshToken
  split
  · exact hs
  · rename_i tr hf
    split
    · exact revokedForHash_revoke now t s hs
    · split
      · exact revokedForHash_revoke now t s hs
      · refine revokedForHash_map (fun r => ?_) hs
        by_cases hr : r.id = tr.id
        · simp [hr]
        · simp [hr]

/-- The tokens of the store after `createRefreshToken`: the cleaned-up rows
followed by the freshly inserted row. -/
lemma createRefreshToken_snd_tokens (now : Int) (u t : Nat) (d : Option String) (s : Store) :
    (createRefreshToken now u t d s).2.2.tokens =
      (cleanupOldTokens now u s).tokens ++
        [⟨(cleanupOldTokens now u s).nextId, u, hashRefreshToken t,
          now + (EXPIRY_DAYS : Int) * msPerDay, d, false, none, now, now⟩] := rfl

/-- One store operation that never re-inserts the secret's hash preserves
`revokedForHash`. -/
lemma revokedForHash_applyOp (tk : Nat) (s : Store) (op : StoreOp)
    (hop : opAvoidsToken tk op)
    (hs : revokedForHash (hashRefreshToken tk) s.tokens) :
    revokedForHash (hashRefreshToken tk) (applyOp s op).tokens := by
  cases op with
  | create u t d now =>
    show revokedForHash _ (createRefreshToken now u t d s).2.2.tokens
    rw [createRefreshToken_snd_tokens]
    intro r hr hh
    rcases List.mem_append.mp hr with hr | hr
    · exact revokedForHash_cleanupOldTokens now u s hs r hr hh
    · rcases List.mem_singleton.mp hr with rfl
      exact absurd hh hop
  | verify t now => exact revokedForHash_verify now t s hs
  | revoke t now => exact revokedForHash_revoke now t s hs
  | revokeAll u now =>
    rw [show (applyOp s (.revokeAll u now)).tokens =
      s.tokens.map (fun r => if activeFor u r then revokeUpd now r else r) from rfl]
    refine revokedForHash_map (fun r => ?_) hs
    by_cases hr : activeFor u r
    · simp [hr]
    · simp [hr]
  | cleanupOld u now => exact revokedForHash_cleanupOldTokens now u s hs
  | cleanupExpired now =>
    rw [show (applyOp s (.cleanupExpired now)).tokens =
      s.tokens.map (fun r =>
        if !r.isRevoked && decide (r.expiresAt < now) then revokeUpd now r else r) from rfl]
    refine revokedForHash_map (fun r => ?_) hs
    by_cases hr : (!r.isRevoked && decide (r.expiresAt < now)) = true
    · simp [hr]
    · simp [hr]
  | setUserActive u b => exact hs

/-- Verification rejects a token all of whose hash-matching rows are
revoked. -/
lemma verify_invalid_of_revokedForHash (now : Int) (t : Nat) (s : Store)
    (hs : revokedForHash (hashRefreshToken t) s.tokens) :
    (verifyRefreshToken now t s).1.isValid = false := by
  have hnone : s.tokens.find?
      (fun r => r.tokenHash == hashRefreshToken t && !r.isRevoked &&
        decide (now < r.expiresAt)) = none := by
    refine List.find?_eq_none.mpr (fun r hr => ?_)
    intro hpred
    simp only [Bool.and_eq_true, beq_iff_eq, Bool.not_eq_true'] at hpred
    exact absurd (hs r hr hpred.1.1) (by simp [hpred.1.2])
  unfold verifyRefreshToken
  rw [hnone]

/-- C2: once every row carrying a token's hash is revoked, any sequence of
store operations (none of which re-inserts that hash — `create` always draws a
fresh random secret) keeps those rows revoked: no operation ever clears the
revoked flag, and verification of that token fails at every later point and
any current time, regardless of the rows' expiry timestamps. -/
theorem c2_revoked_never_verifies_again (tk : Nat) (s : Store) (ops : List StoreOp)
    (hrev : revokedForHash (hashRefreshToken tk) s.tokens)
    (hops : ∀ op ∈ ops, opAvoidsToken tk op) :
    revokedForHash (hashRefreshToken tk) (applyOps s ops).tokens ∧
    ∀ now, (verifyRefreshToken now tk (applyOps s ops)).1.isValid = false := by
  have hpres : revokedForHash (hashRefreshToken tk) (applyOps s ops).tokens := by
    induction ops generalizing s with
    | nil => exact hrev
    | cons op ops ih =>
      rw [show applyOps s (op :: ops) = applyOps (applyOp s op) ops from rfl]
      exact ih (applyOp s op)
        (revokedForHash_applyOp tk s op (hops op (List.mem_cons_self op ops)) hrev)
        (fun o ho => hops o (List.mem_cons_of_mem op ho))
  exact ⟨hpres, fun now => verify_invalid_of_revokedForHash now tk _ hpres⟩

/-- C2 witness: a store whose single row for hash 5 is revoked; after a
create (fresh secret 6), a verify, a revoke, a logout-everywhere, both
cleanups and a user deactivation, the rows with hash 5 are still revoked and
the token still fails verification. -/
theorem c2_witness :
    revokedForHash (hashRefreshToken 5)
      (applyOps ⟨[⟨1, 7, 5, 1000, none, true, none, 0, 0⟩], [⟨7, true⟩], 2⟩
        [.create 7 6 none 10, .verify 5 20, .revoke 5 30, .revokeAll 7 40,
         .cleanupOld 7 50, .cleanupExpired 60, .setUserActive 7 false]).tokens ∧
    (verifyRefreshToken 70 5
      (applyOps ⟨[⟨1, 7, 5, 1000, none, true, none, 0, 0⟩], [⟨7, true⟩], 2⟩
        [.create 7 6 none 10, .verify 5 20, .revoke 5 30, .revokeAll 7 40,
         .cleanupOld 7 50, .cleanupExpired 60, .setUserActive 7 false])).1.isValid =
      false :=
  ⟨(c2_revoked_never_verifies_again 5 _ _ (by decide) (by decide)).1,
   (c2_revoked_never_verifies_again 5 _ _ (by decide) (by decide)).2 70⟩

/-- A first request for a key starts a window at count 1. -/
lemma rateLimitStep_empty (w : Int) (m : Nat) (now : Int) (k : Nat) :
    rateLimitStep w m now k [] = (!decide (m < 1), [(k, ⟨1, now + w⟩)]) := rfl

/-- A request inside a live window increments the counter and keeps the reset
time. -/
lemma rateLimitStep_live (w : Int) (m : Nat) (now : Int) (k : Nat) (c : Nat) (rt : Int)
    (h : ¬ (rt < now)) :
    rateLimitStep w m now k [(k, ⟨c, rt⟩)] = (!decide (m < c + 1), [(k, ⟨c + 1, rt⟩)]) := by
  simp [rateLimitStep, List.lookup, mapSet, h]

/-- A request after the reset time has passed reaps the stale record and
starts a fresh window at count 1. -/
lemma rateLimitStep_reset (w : Int) (m : Nat) (now : Int) (k : Nat) (c : Nat) (rt : Int)
    (h : rt < now) :
    rateLimitStep w m now k [(k, ⟨c, rt⟩)] = (!decide (m < 1), [(k, ⟨1, now + w⟩)]) := by
  simp [rateLimitStep, List.lookup, mapSet, h]

/-- C5: evaluating the wired login route at the failing input. Starting from
an empty shared store, login requests 1–3 from one key inside a window are
admitted, but the 4th is already rejected — each admitted login bumps the
single shared counter twice (login instance, then API instance), so the 4th
login check sees count 7 > 5 and throws 429 before business logic; the stored
counter after the 4th attempt is 7. The claim's "first 5 pass, 6th rejected"
holds only for the login instance in isolation, never in the wired program. A
request after the window's reset time is admitted again. -/
theorem c5_wired_fourth_login_rejected :
    (loginRequestStep 0 0 []).1 = true ∧
    (loginRequestStep 0 0 (loginRequestStep 0 0 []).2).1 = true ∧
    (loginRequestStep 0 0 (loginRequestStep 0 0
      (loginRequestStep 0 0 []).2).2).1 = true ∧
    (loginRequestStep 0 0 (loginRequestStep 0 0 (loginRequestStep 0 0
      (loginRequestStep 0 0 []).2).2).2).1 = false ∧
    (loginRequestStep 0 0 (loginRequestStep 0 0 (loginRequestStep 0 0
      (loginRequestStep 0 0 []).2).2).2).2 = [(0, ⟨7, 900000⟩)] ∧
    (loginRequestStep 1000000 0 (loginRequestStep 0 0 (loginRequestStep 0 0
      (loginRequestStep 0 0 (loginRequestStep 0 0 []).2).2).2).2).1 = true := by
  decide

/-- The eviction loop is the pointwise conditional revocation of the rows
whose ids are listed. -/
lemma foldl_revokeById_eq_map (now : Int) :
    ∀ (ts l : List RefreshTokenRec),
      ts.foldl (fun acc t => revokeById now t.id acc) l =
        l.map fun r => if r.id ∈ ts.map RefreshTokenRec.id then revokeUpd now r else r
  | [], l => by simp
  | t :: ts, l => by
    rw [List.foldl_cons, foldl_revokeById_eq_map now ts (revokeById now t.id l)]
    unfold revokeById
    rw [List.map_map]
    apply List.map_congr_left
    intro r _
    by_cases h1 : r.id = t.id
    · by_cases h2 : r.id ∈ ts.map RefreshTokenRec.id
      · simp [Function.comp, h1, h2]
      · simp [Function.comp, h1, h2]
    · by_cases h2 : r.id ∈ ts.map RefreshTokenRec.id
      · simp [Function.comp, h1, h2]
      · simp [Function.comp, h1, h2]

/-- `cleanupOldTokens` never touches the users table or the id sequence. -/
lemma cleanupOldTokens_users_nextId (now : Int) (u : Nat) (s : Store) :
    (cleanupOldTokens now u s).users = s.users ∧
    (cleanupOldTokens now u s).nextId = s.nextId := by
  simp only [cleanupOldTokens]
  split
  · exact ⟨rfl, rfl⟩
  · exact ⟨rfl, rfl⟩

/-- Below the cap, `cleanupOldTokens` is the identity. -/
lemma cleanupOldTokens_eq_of_lt (now : Int) (u : Nat) (s : Store)
    (hlt : (sortedActive u s).length < MAX_TOKENS_PER_USER) :
    cleanupOldTokens now u s = s := by
  simp only [cleanupOldTokens]
  rw [if_neg]
  exact fun hge => absurd hlt (by simpa [sortedActive] using Nat.not_lt_of_le hge)

/-- At or above the cap, `cleanupOldTokens` revokes exactly the rows whose ids
are the `evictIds`. -/
lemma cleanupOldTokens_tokens_of_ge (now : Int) (u : Nat) (s : Store)
    (hmax : MAX_TOKENS_PER_USER ≤ (sortedActive u s).length) :
    (cleanupOldTokens now u s).tokens =
      s.tokens.map fun r =>
        if r.id ∈ evictIds u s then revokeUpd now r else r := by
  simp only [cleanupOldTokens]
  rw [if_pos (by simpa [sortedActive] using hmax)]
  rw [foldl_revokeById_eq_map now]
  rfl

/-- The ids of the sorted non-revoked rows of a user are distinct whenever the
store's row ids are. -/
lemma sortedActive_ids_nodup (u : Nat) (s : Store)
    (hnodup : (s.tokens.map RefreshTokenRec.id).Nodup) :
    ((sortedActive u s).map RefreshTokenRec.id).Nodup := by
  have hA : ((s.tokens.filter (activeFor u)).map RefreshTokenRec.id).Nodup :=
    ((List.filter_sublist s.tokens).map RefreshTokenRec.id).nodup hnodup
  exact ((List.perm_insertionSort createdLE _).map RefreshTokenRec.id).nodup_iff.mpr hA

/-- After the eviction step at or above the cap, the user has exactly
`MAX_TOKENS_PER_USER - 1` non-revoked rows left. -/
lemma activeCount_cleanupOldTokens_of_ge (now : Int) (u : Nat) (s : Store)
    (hnodup : (s.tokens.map RefreshTokenRec.id).Nodup)
    (hmax : MAX_TOKENS_PER_USER ≤ (sortedActive u s).length) :
    activeCount u (cleanupOldTokens now u s) = MAX_TOKENS_PER_USER - 1 := by
  have hperm : List.Perm (sortedActive u s) (s.tokens.filter (activeFor u)) :=
    List.perm_insertionSort createdLE _
  have hids : ((sortedActive u s).map RefreshTokenRec.id).Nodup :=
    sortedActive_ids_nodup u s hnodup
  unfold activeCount
  rw [cleanupOldTokens_tokens_of_ge now u s hmax, List.countP_map]
  have hfe : (activeFor u ∘ fun r =>
      if r.id ∈ evictIds u s then revokeUpd now r else r) =
      fun r => !(decide (r.id ∈ evictIds u s)) && activeFor u r := by
    funext r
    by_cases hm : r.id ∈ evictIds u s
    · simp [Function.comp, hm, activeFor]
    · simp [Function.comp, hm]
  rw [hfe, ← List.countP_filter]
  rw [← hperm.countP_eq]
  conv_lhs =>
    rw [← List.take_append_drop (evictCount u s) (sortedActive u s), List.countP_append]
  have h1 : ((sortedActive u s).take (evictCount u s)).countP
      (fun r => !(decide (r.id ∈ evictIds u s))) = 0 := by
    refine List.countP_eq_zero.mpr (fun r hr => ?_)
    have hmem : r.id ∈ evictIds u s := List.mem_map_of_mem RefreshTokenRec.id hr
    simp [hmem]
  have h2 : ((sortedActive u s).drop (evictCount u s)).countP
      (fun r => !(decide (r.id ∈ evictIds u s))) =
      ((sortedActive u s).drop (evictCount u s)).length := by
    refine List.countP_eq_length.mpr (fun r hr => ?_)
    have hnotmem : r.id ∉ evictIds u s := by
      intro hmem
      obtain ⟨r', hr', hid⟩ := List.mem_map.mp hmem
      have hr'SA : r' ∈ sortedActive u s :=
        (List.take_sublist _ _).subset hr'
      have hrSA : r ∈ sortedActive u s :=
        (List.drop_sublist _ _).subset hr
      have : r' = r := List.inj_on_of_nodup_map hids hr'SA hrSA hid
      subst this
      have hSAnodup : (sortedActive u s).Nodup := hids.of_map
      rw [← List.take_append_drop (evictCount u s) (sortedActive u s)] at hSAnodup
      exact (List.nodup_append.mp hSAnodup).2.2 hr' hr
    simp [hnotmem]
  rw [h1, h2, List.length_drop]
  have hM : MAX_TOKENS_PER_USER = 5 := rfl
  unfold evictCount
  omega

/-- The tokens of the freshly inserted row and the cleanup store, named for
the create theorem. -/
lemma createRefreshToken_store (now : Int) (u t : Nat) (d : Option String) (s : Store) :
    (createRefreshToken now u t d s).2.2.tokens =
      (cleanupOldTokens now u s).tokens ++
        [⟨s.nextId, u, hashRefreshToken t, now + (EXPIRY_DAYS : Int) * msPerDay,
          d, false, none, now, now⟩] ∧
    (createRefreshToken now u t d s).2.2.users = (cleanupOldTokens now u s).users := by
  have hnext := (cleanupOldTokens_users_nextId now u s).2
  constructor
  · rw [createRefreshToken_snd_tokens, hnext]
  · rfl

/-- C1: after any successful `createRefreshToken`, the user holds at most
`MAX_TOKENS_PER_USER` non-revoked rows — exactly
`min (previous count + 1) MAX_TOKENS_PER_USER` — and the rows revoked by the
eviction step are exactly the oldest non-revoked ones: any previously active
row that ends up revoked was created no later than any previously active row
that survives. The hypotheses are the store invariants that row ids are
distinct and below the id sequence. -/
theorem c1_session_cap (now : Int) (u tok : Nat) (d : Option String) (s : Store)
    (hnodup : (s.tokens.map RefreshTokenRec.id).Nodup)
    (hfresh : ∀ r ∈ s.tokens, r.id < s.nextId) :
    activeCount u (createRefreshToken now u tok d s).2.2 ≤ MAX_TOKENS_PER_USER ∧
    activeCount u (createRefreshToken now u tok d s).2.2 =
      min (activeCount u s + 1) MAX_TOKENS_PER_USER ∧
    ∀ r ∈ s.tokens, activeFor u r = true →
      (∃ r' ∈ (createRefreshToken now u tok d s).2.2.tokens,
        r'.id = r.id ∧ r'.isRevoked = true) →
      ∀ r₂ ∈ s.tokens, activeFor u r₂ = true →
        (∃ r₂' ∈ (createRefreshToken now u tok d s).2.2.tokens,
          r₂'.id = r₂.id ∧ r₂'.isRevoked = false) →
        r.createdAt ≤ r₂.createdAt := by
  obtain ⟨htok, husr⟩ := createRefreshToken_store now u tok d s
  have hM : MAX_TOKENS_PER_USER = 5 := rfl
  have hlenA : (sortedActive u s).length = activeCount u s := by
    have hperm₀ : List.Perm (sortedActive u s) (s.tokens.filter (activeFor u)) :=
      List.perm_insertionSort createdLE _
    rw [hperm₀.length_eq]
    unfold activeCount
    rw [List.countP_eq_length_filter]
  have hnewActive : activeFor u
      (⟨s.nextId, u, hashRefreshToken tok, now + (EXPIRY_DAYS : Int) * msPerDay,
        d, false, none, now, now⟩ : RefreshTokenRec) = true := by
    simp [activeFor]
  have hcount : activeCount u (createRefreshToken now u tok d s).2.2 =
      activeCount u (cleanupOldTokens now u s) + 1 := by
    unfold activeCount
    rw [htok, List.countP_append]
    simp [hnewActive]
  have hmain : activeCount u (createRefreshToken now u tok d s).2.2 =
      min (activeCount u s + 1) MAX_TOKENS_PER_USER := by
    rcases Nat.lt_or_ge (sortedActive u s).length MAX_TOKENS_PER_USER with hlt | hge
    · rw [hcount, cleanupOldTokens_eq_of_lt now u s hlt]
      rw [min_eq_left (by omega)]
    · rw [hcount, activeCount_cleanupOldTokens_of_ge now u s hnodup hge]
      rw [min_eq_right (by omega)]
      omega
  refine ⟨by rw [hmain]; exact min_le_right _ _, hmain, ?_⟩
  intro r hr hract hrev r₂ hr₂ hr₂act hsurv
  obtain ⟨r', hr'mem, hr'id, hr'rev⟩ := hrev
  obtain ⟨r₂', hr₂'mem, hr₂'id, hr₂'surv⟩ := hsurv
  rw [htok] at hr'mem hr₂'mem
  have hinj := List.inj_on_of_nodup_map hnodup
  rcases Nat.lt_or_ge (sortedActive u s).length MAX_TOKENS_PER_USER with hlt | hge
  · -- below the cap nothing is evicted: the revoked-row evidence is absurd
    exfalso
    rw [cleanupOldTokens_eq_of_lt now u s hlt] at hr'mem
    rcases List.mem_append.mp hr'mem with hin | hin
    · have : r' = r := hinj hin hr hr'id
      subst this
      have : r'.isRevoked = false := by
        unfold activeFor at hract
        simp only [Bool.and_eq_true, Bool.not_eq_true'] at hract
        exact hract.2
      rw [hr'rev] at this
      cases this
    · rcases List.mem_singleton.mp hin with rfl
      cases hr'rev
  · -- at the cap: locate the evicted and the surviving row in the sort
    rw [cleanupOldTokens_tokens_of_ge now u s hge] at hr'mem hr₂'mem
    have hperm : List.Perm (sortedActive u s) (s.tokens.filter (activeFor u)) :=
      List.perm_insertionSort createdLE _
    have hids : ((sortedActive u s).map RefreshTokenRec.id).Nodup :=
      sortedActive_ids_nodup u s hnodup
    -- the evicted row r sits in the taken prefix
    have hrtake : r ∈ (sortedActive u s).take (evictCount u s) := by
      have hridS : r.id ∈ evictIds u s := by
        rcases List.mem_append.mp hr'mem with hin | hin
        · obtain ⟨r₀, hr₀mem, hr₀eq⟩ := List.mem_map.mp hin
          by_cases hm : r₀.id ∈ evictIds u s
          · rw [if_pos hm] at hr₀eq
            have hid : r₀.id = r.id := by
              rw [← hr'id, ← hr₀eq]
              simp
            have heq : r₀ = r := hinj hr₀mem hr hid
            exact heq ▸ hm
          · rw [if_neg hm] at hr₀eq
            subst hr₀eq
            have : r₀ = r := hinj hr₀mem hr hr'id
            subst this
            have : r₀.isRevoked = false := by
              unfold activeFor at hract
              simp only [Bool.and_eq_true, Bool.not_eq_true'] at hract
              exact hract.2
            rw [hr'rev] at this
            cases this
        · rcases List.mem_singleton.mp hin with rfl
          cases hr'rev
      obtain ⟨rt, hrtmem, hrtid⟩ := List.mem_map.mp hridS
      have hrtSA : rt ∈ sortedActive u s := (List.take_sublist _ _).subset hrtmem
      have hrtS : rt ∈ s.tokens :=
        (List.mem_filter.mp (hperm.subset hrtSA)).1
      have : rt = r := hinj hrtS hr hrtid
      subst this
      exact hrtmem
    -- the surviving row r₂ sits in the dropped suffix
    have hr₂drop : r₂ ∈ (sortedActive u s).drop (evictCount u s) := by
      have hr₂notS : r₂.id ∉ evictIds u s := by
        intro hm
        rcases List.mem_append.mp hr₂'mem with hin | hin
        · obtain ⟨r₀, hr₀mem, hr₀eq⟩ := List.mem_map.mp hin
          by_cases hm₀ : r₀.id ∈ evictIds u s
          · rw [if_pos hm₀] at hr₀eq
            subst hr₀eq
            cases hr₂'surv
          · rw [if_neg hm₀] at hr₀eq
            subst hr₀eq
            have : r₀ = r₂ := hinj hr₀mem hr₂ hr₂'id
            subst this
            exact hm₀ hm
        · rcases List.mem_singleton.mp hin with rfl
          have hlt₂ := hfresh r₂ hr₂
          rw [← hr₂'id] at hlt₂
          exact absurd hlt₂ (by simp)
      have hr₂SA : r₂ ∈ sortedActive u s := by
        refine hperm.mem_iff.mpr ?_
        exact List.mem_filter.mpr ⟨hr₂, hr₂act⟩
      rw [← List.take_append_drop (evictCount u s) (sortedActive u s)] at hr₂SA
      rcases List.mem_append.mp hr₂SA with hin | hin
      · exact absurd (List.mem_map_of_mem RefreshTokenRec.id hin) hr₂notS
      · exact hin
    have hsorted : (sortedActive u s).Pairwise createdLE :=
      List.sorted_insertionSort createdLE _
    exact hsorted.rel_of_mem_take_of_mem_drop hrtake hr₂drop

/-- C1 witness: user 1 already holds five live sessions with ascending
creation times; a sixth login keeps the count at five, and the one evicted row
(the oldest, id 11) is never newer than any surviving one. -/
theorem c1_witness :
    activeCount 1 (createRefreshToken 100 1 99 none
      ⟨[⟨11, 1, 1, 900, none, false, none, 10, 10⟩, ⟨12, 1, 2, 900, none, false, none, 20, 20⟩,
        ⟨13, 1, 3, 900, none, false, none, 30, 30⟩, ⟨14, 1, 4, 900, none, false, none, 40, 40⟩,
        ⟨15, 1, 5, 900, none, false, none, 50, 50⟩], [⟨1, true⟩], 16⟩).2.2 =
      min (activeCount 1
        ⟨[⟨11, 1, 1, 900, none, false, none, 10, 10⟩, ⟨12, 1, 2, 900, none, false, none, 20, 20⟩,
          ⟨13, 1, 3, 900, none, false, none, 30, 30⟩, ⟨14, 1, 4, 900, none, false, none, 40, 40⟩,
          ⟨15, 1, 5, 900, none, false, none, 50, 50⟩], [⟨1, true⟩], 16⟩ + 1)
        MAX_TOKENS_PER_USER ∧
    (10 : Int) ≤ 20 :=
  ⟨(c1_session_cap 100 1 99 none _ (by decide) (by decide)).2.1,
   (c1_session_cap 100 1 99 none
      ⟨[⟨11, 1, 1, 900, none, false, none, 10, 10⟩, ⟨12, 1, 2, 900, none, false, none, 20, 20⟩,
        ⟨13, 1, 3, 900, none, false, none, 30, 30⟩, ⟨14, 1, 4, 900, none, false, none, 40, 40⟩,
        ⟨15, 1, 5, 900, none, false, none, 50, 50⟩], [⟨1, true⟩], 16⟩ (by decide) (by decide)).2.2
     ⟨11, 1, 1, 900, none, false, none, 10, 10⟩ (by decide) (by decide) (by decide)
     ⟨12, 1, 2, 900, none, false, none, 20, 20⟩ (by decide) (by decide) (by decide)⟩

end SchoolAuth
